import Mathlib

/-!
Verification of the CKB node dashboard history/statistics engine
(`server.js`) against its natural-language specification.

The JavaScript source is shallowly embedded: machine numbers are `Nat`
and `Int` (JavaScript BigInt arithmetic is arbitrary-precision, and the
float values the code manipulates are modelled exactly with `ℚ`),
fallible operations return `Except`, and the module-level cache
(`histCache`, `histCacheTime`) is threaded as explicit state.  Transport
responses are inputs to the pure functions, since the wire layer is
outside the computation being specified.
-/

/-! ### RPC client (`ckbRequest`, `rpcCall`, `rpcBatch`) -/

/-- A JSON-RPC error object `{code, message}` as found in a response
envelope. -/
structure RpcErrObj where
  code : Int
  message : String
deriving DecidableEq, Repr

/-- A single-call JSON-RPC response envelope: `error` is present on
node-side failure, `result` is the payload (absent results are `none`). -/
structure RpcEnvelope (α : Type) where
  error : Option RpcErrObj
  result : Option α
deriving DecidableEq, Repr

/-- Result processing of `rpcCall` (server.js line 60):
`if (r.error) throw new Error(r.error.message); return r.result;`.
The thrown value is a plain JavaScript `Error` whose payload is the
message string, so a failure is modelled as `Except.error message`. -/
def rpcCallProcess {α : Type} (r : RpcEnvelope α) : Except String (Option α) :=
  match r.error with
  | some e => Except.error e.message
  | none => Except.ok r.result

/-- Full `rpcCall`: the transport (`ckbRequest`) either rejects with a
plain `Error` (modelled by its message string) or resolves with a parsed
envelope, after which `rpcCallProcess` runs. -/
def rpcCall {α : Type} (transport : Except String (RpcEnvelope α)) :
    Except String (Option α) :=
  match transport with
  | Except.error e => Except.error e
  | Except.ok r => rpcCallProcess r

/-- What `ckbRequest` hands to `rpcBatch`: either a JSON array of
response items (each `{id, result}`, result possibly absent) or a
non-array value. -/
inductive BatchResponse (α : Type) where
  | arr (items : List (Nat × Option α))
  | nonArray
deriving DecidableEq

/-- server.js line 67: `results.sort((a, b) => a.id - b.id).map(r => r.result)`.
The ascending-by-id comparison sort is modelled with `mergeSort`. -/
def rpcBatchProcess {α : Type} (results : List (Nat × Option α)) : List (Option α) :=
  (results.mergeSort (fun a b => decide (a.1 ≤ b.1))).map Prod.snd

/-- Model of `rpcBatch` (server.js lines 63-69): requests are tagged with ids
`0..N-1` in input order; the response must be an array, is sorted by id,
and the `result` fields are returned. -/
def rpcBatch {α : Type} (resp : Except String (BatchResponse α)) :
    Except String (List (Option α)) :=
  match resp with
  | Except.error e => Except.error e
  | Except.ok BatchResponse.nonArray => Except.error "Expected batch array response"
  | Except.ok (BatchResponse.arr items) => Except.ok (rpcBatchProcess items)

/-! ### History aggregator data model (`buildHistory`, server.js lines 71-192) -/

/-- A block header as consumed by the aggregator.  The node delivers
`number` and `timestamp` as hex strings which the code decodes with
`parseInt(·, 16)`; the decoded values are modelled directly. -/
structure Header where
  number : Nat
  timestamp : Nat
deriving DecidableEq, Repr

/-- A full block as returned by `get_block_by_number`: the code guards on
`b && b.header` and reads `b.transactions?.length ?? 1`, so the header
and the transactions array may each be absent.  Only the length of the
transactions array is consumed. -/
structure Block where
  header : Option Header
  transactions : Option Nat
deriving DecidableEq, Repr

/-- One derived per-block entry (server.js lines 150-155). -/
structure BlockStat where
  number : Nat
  timestamp : Nat
  txCount : Option Int
  blockTime : Int
deriving DecidableEq, Repr

/-- The slice of `get_blockchain_info` the aggregator reads: the
`difficulty` field, a hex string that may be absent or malformed. -/
structure ChainInfo where
  difficulty : Option String
deriving DecidableEq, Repr

/-- The history snapshot (server.js lines 183-189).  `avgBlockTimeSec`
keeps the exact numeric value the code computes before its
`toFixed(2)` rendering. -/
structure Snapshot where
  blocks : List BlockStat
  avgBlockTimeSec : ℚ
  networkHashrate : String
  hashratePerBlock : List (Nat × Nat)
  tipHeight : Nat
deriving DecidableEq

/-- The module-level cache slot: `histCache` (null before the first
successful cycle) and `histCacheTime`. -/
structure Cache where
  hist : Option Snapshot
  time : Nat
deriving DecidableEq

def HIST_TTL : Nat := 15000
def HIST_COUNT : Nat := 60
def TX_COUNT : Nat := 30

/-- One hexadecimal digit, as accepted by JavaScript `BigInt("0x…")`. -/
def hexDigitVal (c : Char) : Option Nat :=
  if '0' ≤ c ∧ c ≤ '9' then some (c.toNat - '0'.toNat)
  else if 'a' ≤ c ∧ c ≤ 'f' then some (c.toNat - 'a'.toNat + 10)
  else if 'A' ≤ c ∧ c ≤ 'F' then some (c.toNat - 'A'.toNat + 10)
  else none

/-- Model of `BigInt("0x" + s)`: succeeds exactly when `s` is a nonempty string of
hex digits. -/
def parseHexNat (s : String) : Option Nat :=
  if s.isEmpty then none
  else s.foldl (fun acc c => acc.bind (fun n => (hexDigitVal c).map (fun d => 16 * n + d)))
    (some 0)

/-- Model of the replace call stripping a leading "0x" from the difficulty string. -/
def stripHexMark (s : String) : String :=
  if s.startsWith "0x" then s.drop 2 else s

/-- server.js line 167: `BigInt` applied to "0x" plus the difficulty with any leading "0x" stripped.
A missing field (property access on `undefined` throws) or an unparsable
string (BigInt throws) both yield `none`, landing in the `catch`. -/
def parseDifficulty (d : Option String) : Option Nat :=
  d.bind (fun s => parseHexNat (stripHexMark s))

/-- server.js line 136: `Math.max(0, (b.transactions?.length ?? 1) - 1)`. -/
def txCountOfLen (len : Option Nat) : Int :=
  max 0 ((len.getD 1 : Int) - 1)

/-- The `txMap` object built at server.js lines 131-138: for every
non-null block with a header, record its tx count keyed by block number;
a later entry with the same key overwrites an earlier one. -/
def txMapOf (blocks : List (Option Block)) : Nat → Option Int :=
  blocks.foldl
    (fun m b =>
      match b with
      | some bb =>
        match bb.header with
        | some h => fun k => if k = h.number then some (txCountOfLen bb.transactions) else m k
        | none => m
      | none => m)
    (fun _ => none)

/-- One `blockData` entry (server.js lines 150-155): height and
timestamp come from the current header, `blockTime` is the signed
difference of adjacent timestamps in milliseconds. -/
def mkStat (txMap : Nat → Option Int) (prev h : Header) : BlockStat :=
  { number := h.number
    timestamp := h.timestamp
    txCount := txMap h.number
    blockTime := (h.timestamp : Int) - (prev.timestamp : Int) }

/-- The loop at server.js lines 141-156: walk consecutive header pairs
(`headers[i-1]`, `headers[i]`) from i = 1, skipping pairs with a missing
member. -/
def buildBlockData (txMap : Nat → Option Int) : List (Option Header) → List BlockStat
  | p :: c :: rest =>
    (match p, c with
     | some prev, some h => [mkStat txMap prev h]
     | _, _ => []) ++ buildBlockData txMap (c :: rest)
  | _ => []

/-- Model of `Array.prototype.slice(-n)` for n > 0: the last `min n length`
elements. -/
def lastN {α : Type} (n : Nat) (l : List α) : List α :=
  l.drop (l.length - n)

/-- Sum of the `blockTime` fields. -/
def sumBlockTimes (l : List BlockStat) : Int :=
  (l.map (fun b => b.blockTime)).sum

/-- server.js lines 158-161: average block time in seconds over the last
20 entries, with the `(recent.length || 1)` guard against an empty
window. -/
def avgSecOf (blockData : List BlockStat) : ℚ :=
  let recent := lastN 20 blockData
  let avgMs : ℚ :=
    (sumBlockTimes recent : ℚ) / (if recent.length = 0 then 1 else (recent.length : ℚ))
  avgMs / 1000

/-- JavaScript `Math.round`: round half toward positive infinity. -/
def roundJS (q : ℚ) : Int := ⌊q + 1 / 2⌋

/-- Model of `Number.prototype.toFixed(2)` on the nonnegative values produced
here: round to the nearest hundredth (ties away from the value toward
the larger numerator, per the specification of toFixed) and print with
exactly two decimal places. -/
def toFixed2 (q : ℚ) : String :=
  let n : Int := ⌊q * 100 + 1 / 2⌋
  let whole : Int := n / 100
  let frac : Nat := (n % 100).toNat
  toString whole ++ "." ++ (if frac < 10 then "0" ++ toString frac else toString frac)

/-- The unit table of `formatHashrate` (server.js lines 80-88), in
source order: largest threshold first. -/
def hashrateUnits : List (Nat × String) :=
  [(10 ^ 18, "EH/s"), (10 ^ 15, "PH/s"), (10 ^ 12, "TH/s"), (10 ^ 9, "GH/s"),
   (10 ^ 6, "MH/s"), (10 ^ 3, "kH/s"), (1, "H/s")]

/-- Model of `formatHashrate` (server.js lines 78-96): first unit whose threshold
does not exceed `h`; value is `Number(h * 1000n / div) / 1000` rendered
with `toFixed(2)`; `h = 0` falls through to `String(h)` plus the H/s unit. -/
def formatHashrate (h : Nat) : String :=
  match hashrateUnits.find? (fun p => decide (p.1 ≤ h)) with
  | some (div, unit) => toFixed2 (((h * 1000 / div : Nat) : ℚ) / 1000) ++ " " ++ unit
  | none => toString h ++ " H/s"

/-- server.js line 169: `diff / BigInt(Math.max(1, Math.round(avgSec)))`. -/
def hrOf (diff : Nat) (avgSec : ℚ) : Nat :=
  diff / (max 1 (roundJS avgSec)).toNat

/-- The per-block hashrate loop (server.js lines 172-180): for every
index i from 10 on, average the trailing 10 block times and divide the
difficulty by it, reported in whole TH/s. -/
def hashratePerBlockOf (diff : Nat) (blockData : List BlockStat) : List (Nat × Nat) :=
  (List.range blockData.length).filterMap (fun i =>
    if i < 10 then none
    else
      let slice := (blockData.take i).drop (i - 10)
      let wAvgMs : ℚ := (sumBlockTimes slice : ℚ) / (slice.length : ℚ)
      let wAvgS : ℚ := wAvgMs / 1000
      let wHr : Nat := if 0 < wAvgS then diff / (max 1 (roundJS wAvgS)).toNat else 0
      (blockData.get? i).map (fun b => (b.number, wHr / 10 ^ 12)))

/-- The `try`-block at server.js lines 163-181: when the difficulty
parses, compute the formatted network hashrate and the per-block series;
when parsing throws, the `catch` leaves the sentinel `"—"` and the empty
list in place. -/
def hashrateSection (diffStr : Option String) (blockData : List BlockStat) (avgSec : ℚ) :
    String × List (Nat × Nat) :=
  match parseDifficulty diffStr with
  | none => ("—", [])
  | some diff => (formatHashrate (hrOf diff avgSec), hashratePerBlockOf diff blockData)

/-- Heights requested by the header batch (server.js lines 108-118):
`count = min(60, tipNum + 1)`, `start = tipNum - count + 1`, ascending. -/
def headerHeights (tipNum : Nat) : List Nat :=
  let count := min HIST_COUNT (tipNum + 1)
  let start := tipNum + 1 - count
  (List.range count).map (fun i => start + i)

/-- Heights requested by the tx-count batch (server.js lines 122-128). -/
def txHeights (tipNum : Nat) : List Nat :=
  let count := min HIST_COUNT (tipNum + 1)
  let txFetchCount := min TX_COUNT count
  (List.range txFetchCount).map (fun i => tipNum + 1 - txFetchCount + i)

/-- The fetch-and-compute part of `buildHistory` (server.js lines
102-191), with the four upstream results supplied as inputs.  Each
`await` of a rejected promise aborts the whole cycle with that error and
the cache is only written after everything succeeded. -/
def buildHistoryFetch (now : Nat) (c : Cache)
    (tipRes : Except String Header) (chainRes : Except String ChainInfo)
    (headersRes : Except String (List (Option Header)))
    (blocksRes : Except String (List (Option Block))) :
    Except String Snapshot × Cache :=
  match tipRes with
  | Except.error e => (Except.error e, c)
  | Except.ok tip =>
    match chainRes with
    | Except.error e => (Except.error e, c)
    | Except.ok chainInfo =>
      match headersRes with
      | Except.error e => (Except.error e, c)
      | Except.ok headers =>
        match blocksRes with
        | Except.error e => (Except.error e, c)
        | Except.ok blocks =>
          let tipNum := tip.number
          let txMap := txMapOf blocks
          let blockData := buildBlockData txMap headers
          let avgSec := avgSecOf blockData
          let hr := hashrateSection chainInfo.difficulty blockData avgSec
          let snap : Snapshot :=
            { blocks := blockData
              avgBlockTimeSec := avgSec
              networkHashrate := hr.1
              hashratePerBlock := hr.2
              tipHeight := tipNum }
          (Except.ok snap, { hist := some snap, time := now })

/-- Model of `buildHistory` (server.js lines 98-192): serve the cache while it is
fresh (line 100), otherwise run a cycle. -/
def buildHistoryCore (now : Nat) (c : Cache)
    (tipRes : Except String Header) (chainRes : Except String ChainInfo)
    (headersRes : Except String (List (Option Header)))
    (blocksRes : Except String (List (Option Block))) :
    Except String Snapshot × Cache :=
  match c.hist with
  | some snap =>
    if now - c.time < HIST_TTL then (Except.ok snap, c)
    else buildHistoryFetch now c tipRes chainRes headersRes blocksRes
  | none => buildHistoryFetch now c tipRes chainRes headersRes blocksRes

/-- First unit whose threshold the value reaches, with the fallthrough
pair of the `h = 0` case (the loop body never runs there and the
trailing `return` uses unit H/s). -/
def unitFor (h : Nat) : Nat × String :=
  (hashrateUnits.find? (fun p => decide (p.1 ≤ h))).getD (1, "H/s")

/-! ### Concurrency model for `buildHistory` callers

`buildHistory` runs synchronously from entry (line 99) up to its first
`await` (line 103); the module variables `histCache` and `histCacheTime`
are assigned only at lines 183-190, after every `await`.  Under the
single-threaded cooperative event loop, the synchronous prefixes of all
concurrently entered calls therefore execute before any network response
is delivered, each observing the cache state left by the previous
prefix, which is unchanged. -/

/-- Outcome of the synchronous prefix of one `buildHistory` call. -/
inductive SyncOutcome where
  | hit (s : Snapshot)
  | startFetch
deriving DecidableEq

/-- The synchronous prefix (server.js lines 99-106): return the cached
snapshot when fresh, otherwise issue the tip-header fetch and suspend.
No write to the cache happens on either path. -/
def syncPhase (c : Cache) (now : Nat) : SyncOutcome × Cache :=
  match c.hist with
  | some snap =>
    if now - c.time < HIST_TTL then (SyncOutcome.hit snap, c)
    else (SyncOutcome.startFetch, c)
  | none => (SyncOutcome.startFetch, c)

/-- Execution of `n` concurrent `buildHistory` calls entering at time `now`: their
synchronous prefixes run back to back, threading the cache; the first
component counts how many tip-header fetches were issued. -/
def concurrentTipFetches (n : Nat) (c : Cache) (now : Nat) : Nat × Cache :=
  (List.range n).foldl
    (fun acc _ =>
      match syncPhase acc.2 now with
      | (SyncOutcome.hit _, c2) => (acc.1, c2)
      | (SyncOutcome.startFetch, c2) => (acc.1 + 1, c2))
    (0, c)

/-! ### Helper lemmas -/

/-- Sorting a permutation of the canonical id-tagged response list
restores the canonical list itself. -/
theorem rpcBatchProcess_perm_canonical {α : Type} (N : Nat) (f : Nat → Option α)
    (resp : List (Nat × Option α))
    (hperm : resp.Perm ((List.range N).map (fun i => (i, f i)))) :
    rpcBatchProcess resp = (List.range N).map f := by
  classical
  set canonical : List (Nat × Option α) := (List.range N).map (fun i => (i, f i)) with hcan
  set s : List (Nat × Option α) :=
    resp.mergeSort (fun a b => decide (a.1 ≤ b.1)) with hs
  have hsperm : s.Perm canonical :=
    (List.mergeSort_perm resp _).trans hperm
  -- the sorted list is pairwise ≤ on ids
  have hle : List.Pairwise (fun a b : Nat × Option α => a.1 ≤ b.1) s := by
    have := @List.sorted_mergeSort (Nat × Option α)
      (fun a b => decide (a.1 ≤ b.1))
      (fun a b c hab hbc => by
        simp only [decide_eq_true_eq] at *; omega)
      (fun a b => by
        simp only [Bool.or_eq_true, decide_eq_true_eq]; omega)
      resp
    exact this.imp (fun h => by simpa using h)
  -- ids are pairwise distinct
  have hcanfst : canonical.map Prod.fst = List.range N := by
    rw [hcan, List.map_map]
    simp [Function.comp_def]
  have hnodup : (s.map Prod.fst).Nodup := by
    have h1 : (s.map Prod.fst).Perm (canonical.map Prod.fst) := hsperm.map _
    rw [hcanfst] at h1
    exact h1.nodup_iff.mpr (List.nodup_range N)
  have hne : List.Pairwise (fun a b : Nat × Option α => a.1 ≠ b.1) s :=
    List.pairwise_map.mp hnodup
  have hlt : List.Sorted (fun a b : Nat × Option α => a.1 < b.1) s :=
    (hle.and hne).imp (fun h => by omega)
  have hcanlt : List.Sorted (fun a b : Nat × Option α => a.1 < b.1) canonical := by
    rw [hcan]
    exact List.pairwise_map.mpr
      ((List.pairwise_lt_range N).imp (fun h => by simpa using h))
  haveI : IsAntisymm (Nat × Option α) (fun a b => a.1 < b.1) :=
    ⟨fun a b h1 h2 => absurd h2 (by omega)⟩
  have heq : s = canonical := List.eq_of_perm_of_sorted hsperm hlt hcanlt
  have : rpcBatchProcess resp = canonical.map Prod.snd := by
    rw [rpcBatchProcess, ← hs, heq]
  rw [this, hcan, List.map_map]
  simp [Function.comp]

/-- C1: for a batch of size N, `rpcBatch` returns exactly N results and
the result at position i is the `result` field of the response item with
id i, whatever order the transport listed the items in. -/
theorem rpcBatch_restores_request_order {α : Type} (N : Nat) (f : Nat → Option α)
    (resp : List (Nat × Option α))
    (hperm : resp.Perm ((List.range N).map (fun i => (i, f i)))) :
    rpcBatch (Except.ok (BatchResponse.arr resp)) =
      Except.ok ((List.range N).map f) ∧
    ∀ l, rpcBatch (Except.ok (BatchResponse.arr resp)) = Except.ok l →
      l.length = N ∧ ∀ i : Nat, i < N → l.get? i = some (f i) := by
  have hmain := rpcBatchProcess_perm_canonical N f resp hperm
  constructor
  · simp [rpcBatch, hmain]
  · intro l hl
    simp only [rpcBatch, hmain, Except.ok.injEq] at hl
    subst hl
    refine ⟨by simp, fun i hi => ?_⟩
    simp [List.get?_eq_getElem?, List.getElem?_map, List.getElem?_range hi]

/-- Concrete instance of C1: a two-item batch whose transport response
arrives in reversed id order. -/
theorem rpcBatch_restores_request_order_witness :
    ([((1 : Nat), some (10 : Nat)), (0, some 20)]).Perm
      ((List.range 2).map (fun i => (i, some (20 - 10 * i)))) ∧
    rpcBatch (Except.ok (BatchResponse.arr [((1 : Nat), some (10 : Nat)), (0, some 20)])) =
      Except.ok ((List.range 2).map (fun i => some (20 - 10 * i))) :=
  ⟨by decide,
   (rpcBatch_restores_request_order 2 (fun i => some (20 - 10 * i))
      [(1, some 10), (0, some 20)] (by decide)).1⟩


/-- While the cache is not fresh, `buildHistory` performs the fetch
cycle. -/
theorem buildHistoryCore_not_fresh (now : Nat) (c : Cache)
    (tipRes : Except String Header) (chainRes : Except String ChainInfo)
    (headersRes : Except String (List (Option Header)))
    (blocksRes : Except String (List (Option Block)))
    (hnf : ¬ (c.hist.isSome = true ∧ now - c.time < HIST_TTL)) :
    buildHistoryCore now c tipRes chainRes headersRes blocksRes =
      buildHistoryFetch now c tipRes chainRes headersRes blocksRes := by
  unfold buildHistoryCore
  rcases hh : c.hist with _ | s
  · rfl
  · show (if now - c.time < HIST_TTL then (Except.ok s, c)
        else buildHistoryFetch now c tipRes chainRes headersRes blocksRes) =
      buildHistoryFetch now c tipRes chainRes headersRes blocksRes
    rw [if_neg (fun hlt => hnf ⟨by rw [hh]; rfl, hlt⟩)]

/-- Evaluation of `buildBlockData` on a gapless run of present headers: one entry per
consecutive pair. -/
theorem buildBlockData_of_seq (txMap : Nat → Option Int) (g : Nat → Header) :
    ∀ (n s : Nat),
      buildBlockData txMap ((List.range' s n).map (fun i => some (g i))) =
        (List.range' s (n - 1)).map (fun i => mkStat txMap (g i) (g (i + 1)))
  | 0, s => rfl
  | 1, s => rfl
  | (k + 2), s => by
    have h1 : List.range' s (k + 2) = s :: (s + 1) :: List.range' (s + 2) k := by
      rw [List.range'_succ, List.range'_succ]
    have ih := buildBlockData_of_seq txMap g (k + 1) (s + 1)
    rw [List.range'_succ] at ih
    have h4 : k + 1 - 1 = k := rfl
    rw [h4] at ih
    rw [h1]
    simp only [List.map_cons] at ih ⊢
    rw [buildBlockData, ih]
    have h3 : List.range' s (k + 2 - 1) = s :: List.range' (s + 1) k := by
      rw [show k + 2 - 1 = k + 1 from rfl, List.range'_succ]
    rw [h3]
    simp


/-- The header request heights form the contiguous ascending range
described at server.js lines 108-110. -/
theorem headerHeights_eq_range' (t : Nat) :
    headerHeights t =
      List.range' (t + 1 - min HIST_COUNT (t + 1)) (min HIST_COUNT (t + 1)) := by
  unfold headerHeights
  exact (List.range'_eq_map_range _ _).symm

/-- A tx-count batch whose items all failed contributes nothing to the
tx map. -/
theorem txMapOf_all_none (bs : List (Option Block)) (h : ∀ b ∈ bs, b = none) :
    ∀ k, txMapOf bs k = none := by
  unfold txMapOf
  suffices hgen : ∀ (l : List (Option Block)) (acc : Nat → Option Int),
      (∀ b ∈ l, b = none) → l.foldl
        (fun m b =>
          match b with
          | some bb =>
            match bb.header with
            | some hh => fun k => if k = hh.number then some (txCountOfLen bb.transactions) else m k
            | none => m
          | none => m)
        acc = acc by
    intro k
    rw [hgen bs _ h]
  intro l
  induction l with
  | nil => intro acc _; rfl
  | cons b rest ih =>
    intro acc hall
    have hb : b = none := hall b (List.mem_cons_self b rest)
    subst hb
    exact ih acc (fun x hx => hall x (List.mem_cons_of_mem _ hx))

/-- When the tx map is empty every derived entry has a null tx count. -/
theorem buildBlockData_txCount_none (txMap : Nat → Option Int) (hmap : ∀ n, txMap n = none) :
    ∀ hs : List (Option Header), ∀ st ∈ buildBlockData txMap hs, st.txCount = none
  | [] => by simp [buildBlockData]
  | [x] => by
    intro st hst
    simp only [buildBlockData] at hst
    cases hst
  | p :: c :: rest => by
    intro st hst
    rcases p with _ | prev
    · rw [show buildBlockData txMap (none :: c :: rest) =
          buildBlockData txMap (c :: rest) from rfl] at hst
      exact buildBlockData_txCount_none txMap hmap (c :: rest) st hst
    · rcases c with _ | h
      · rw [show buildBlockData txMap (some prev :: none :: rest) =
            buildBlockData txMap (none :: rest) from rfl] at hst
        exact buildBlockData_txCount_none txMap hmap (none :: rest) st hst
      · rw [show buildBlockData txMap (some prev :: some h :: rest) =
            mkStat txMap prev h :: buildBlockData txMap (some h :: rest) from rfl] at hst
        rcases List.mem_cons.mp hst with hh | hm
        · rw [hh]
          simpa [mkStat] using hmap h.number
        · exact buildBlockData_txCount_none txMap hmap (some h :: rest) st hm

/-! ### Claim theorems -/

/-- C2: `averageBlockTimeSec` of a snapshot equals the arithmetic mean
of the `blockTime` values of the last min(length, 20) entries of
`blocks`, divided by 1000; when `blocks` is empty it equals 0. -/
theorem avgBlockTimeSec_is_mean (l : List BlockStat) :
    avgSecOf l =
      if l.length = 0 then 0
      else (((((lastN 20 l).map (fun b => b.blockTime)).sum : Int) : ℚ)
        / ((min 20 l.length : Nat) : ℚ)) / 1000 := by
  have hlen : (lastN 20 l).length = min 20 l.length := by
    simp only [lastN, List.length_drop]
    omega
  by_cases h0 : l.length = 0
  · have hnil : l = [] := List.length_eq_zero.mp h0
    subst hnil
    simp [avgSecOf, lastN, sumBlockTimes]
  · rw [if_neg h0]
    have hmin : ¬ (min 20 l.length = 0) := by omega
    simp only [avgSecOf, sumBlockTimes, hlen, hmin, if_false]

/-- C3: the derived transaction count of a fetched block is
max(0, raw transaction array length − 1): length 5 yields 4, lengths 0
and 1 yield 0, a missing array counts as length 1, and the result is
never negative. -/
theorem txCount_coinbase_adjustment :
    (∀ len : Nat, txCountOfLen (some len) = max 0 ((len : Int) - 1)) ∧
    txCountOfLen (some 5) = 4 ∧
    txCountOfLen (some 0) = 0 ∧
    txCountOfLen (some 1) = 0 ∧
    txCountOfLen none = 0 ∧
    (∀ t : Option Nat, 0 ≤ txCountOfLen t) :=
  ⟨fun len => rfl, by decide, by decide, by decide, by decide,
   fun t => le_max_left 0 _⟩

/-- C4: when the reported difficulty is missing or not parseable as an
unsigned big integer, the aggregation cycle still succeeds,
`networkHashrate` is the unavailable sentinel and `hashratePerBlock` is
empty. -/
theorem difficulty_unparsable_degrades (now : Nat) (c : Cache) (tip : Header)
    (ci : ChainInfo) (hs : List (Option Header)) (bs : List (Option Block))
    (hnf : ¬ (c.hist.isSome = true ∧ now - c.time < HIST_TTL))
    (hdiff : parseDifficulty ci.difficulty = none) :
    ∃ snap : Snapshot,
      buildHistoryCore now c (Except.ok tip) (Except.ok ci) (Except.ok hs) (Except.ok bs) =
        (Except.ok snap, { hist := some snap, time := now }) ∧
      snap.networkHashrate = "—" ∧
      snap.hashratePerBlock = [] := by
  rw [buildHistoryCore_not_fresh _ _ _ _ _ _ hnf]
  simp only [buildHistoryFetch]
  refine ⟨_, rfl, ?_, ?_⟩
  · simp [hashrateSection, hdiff]
  · simp [hashrateSection, hdiff]

/-- Concrete instance of C4: a missing difficulty field. -/
theorem difficulty_unparsable_degrades_witness :
    ∃ snap : Snapshot,
      buildHistoryCore 0 { hist := none, time := 0 }
        (Except.ok { number := 0, timestamp := 0 })
        (Except.ok { difficulty := none }) (Except.ok []) (Except.ok []) =
        (Except.ok snap, { hist := some snap, time := 0 }) ∧
      snap.networkHashrate = "—" ∧
      snap.hashratePerBlock = [] :=
  difficulty_unparsable_degrades 0 { hist := none, time := 0 }
    { number := 0, timestamp := 0 } { difficulty := none } [] []
    (by decide) rfl

/-- C5: a failure of any mandatory fetch (tip header, chain info, or the
header batch) fails the whole cycle with the underlying error and leaves
the cache slot — snapshot and freshness timestamp — exactly as it was. -/
theorem mandatory_fetch_failure_preserves_cache (now : Nat) (c : Cache)
    (tipRes : Except String Header) (chainRes : Except String ChainInfo)
    (headersRes : Except String (List (Option Header)))
    (blocksRes : Except String (List (Option Block)))
    (hnf : ¬ (c.hist.isSome = true ∧ now - c.time < HIST_TTL)) :
    (∀ e, tipRes = Except.error e →
      buildHistoryCore now c tipRes chainRes headersRes blocksRes = (Except.error e, c)) ∧
    (∀ e tip, tipRes = Except.ok tip → chainRes = Except.error e →
      buildHistoryCore now c tipRes chainRes headersRes blocksRes = (Except.error e, c)) ∧
    (∀ e tip ci, tipRes = Except.ok tip → chainRes = Except.ok ci →
      headersRes = Except.error e →
      buildHistoryCore now c tipRes chainRes headersRes blocksRes = (Except.error e, c)) := by
  rw [buildHistoryCore_not_fresh _ _ _ _ _ _ hnf]
  refine ⟨?_, ?_, ?_⟩
  · intro e he
    subst he
    rfl
  · intro e tip ht hc
    subst ht
    subst hc
    rfl
  · intro e tip ci ht hc hh
    subst ht
    subst hc
    subst hh
    rfl

/-- Concrete instance of C5: a transport failure on the tip fetch while
a stale snapshot is cached leaves that snapshot in place. -/
theorem mandatory_fetch_failure_preserves_cache_witness :
    buildHistoryCore 20000
      { hist := some { blocks := [], avgBlockTimeSec := 0, networkHashrate := "—",
                       hashratePerBlock := [], tipHeight := 0 }, time := 0 }
      (Except.error "connect ECONNREFUSED") (Except.ok { difficulty := none })
      (Except.ok []) (Except.ok []) =
      (Except.error "connect ECONNREFUSED",
       { hist := some { blocks := [], avgBlockTimeSec := 0, networkHashrate := "—",
                        hashratePerBlock := [], tipHeight := 0 }, time := 0 }) :=
  (mandatory_fetch_failure_preserves_cache 20000
      { hist := some { blocks := [], avgBlockTimeSec := 0, networkHashrate := "—",
                       hashratePerBlock := [], tipHeight := 0 }, time := 0 }
      (Except.error "connect ECONNREFUSED") (Except.ok { difficulty := none })
      (Except.ok []) (Except.ok []) (by decide)).1 "connect ECONNREFUSED" rfl

/-- Dropping the head of a contiguous range shifts its start. -/
theorem range'_drop_one (s n : Nat) :
    (List.range' s n).drop 1 = List.range' (s + 1) (n - 1) := by
  cases n with
  | zero => rfl
  | succ k => rw [List.range'_succ]; rfl

/-- C6: a snapshot produced by an aggregation cycle — with the node
returning every requested header carrying its requested height — has
`blocks` strictly ascending by height with no duplicates and no gaps,
covering exactly heights start+1 through tipHeight, where
count = min(60, tipHeight + 1) and start = tipHeight − count + 1: the
oldest fetched header produces no entry. -/
theorem snapshot_blocks_cover_window (now : Nat) (c : Cache) (tip : Header)
    (ci : ChainInfo) (bs : List (Option Block)) (hdrs : Nat → Header)
    (hnf : ¬ (c.hist.isSome = true ∧ now - c.time < HIST_TTL))
    (hnum : ∀ hgt, (hdrs hgt).number = hgt) :
    ∃ snap : Snapshot, ∃ c2 : Cache,
      buildHistoryCore now c (Except.ok tip) (Except.ok ci)
        (Except.ok ((headerHeights tip.number).map (fun hgt => some (hdrs hgt))))
        (Except.ok bs) = (Except.ok snap, c2) ∧
      snap.blocks.map (fun b => b.number) = (headerHeights tip.number).drop 1 ∧
      (headerHeights tip.number).drop 1 =
        List.range' (tip.number + 2 - min HIST_COUNT (tip.number + 1))
          (min HIST_COUNT (tip.number + 1) - 1) ∧
      List.Pairwise (fun a b => a < b) (snap.blocks.map (fun b => b.number)) := by
  rw [buildHistoryCore_not_fresh _ _ _ _ _ _ hnf]
  simp only [buildHistoryFetch]
  have h60 : HIST_COUNT = 60 := rfl
  have hbd : buildBlockData (txMapOf bs)
      ((headerHeights tip.number).map (fun hgt => some (hdrs hgt))) =
      (List.range' (tip.number + 1 - min HIST_COUNT (tip.number + 1))
        (min HIST_COUNT (tip.number + 1) - 1)).map
        (fun i => mkStat (txMapOf bs) (hdrs i) (hdrs (i + 1))) := by
    rw [headerHeights_eq_range', buildBlockData_of_seq]
  have hmapnum : (buildBlockData (txMapOf bs)
      ((headerHeights tip.number).map (fun hgt => some (hdrs hgt)))).map
        (fun b => b.number) =
      List.range' (tip.number + 2 - min HIST_COUNT (tip.number + 1))
        (min HIST_COUNT (tip.number + 1) - 1) := by
    rw [hbd, List.map_map]
    have hc : ((fun b : BlockStat => b.number) ∘
        (fun i => mkStat (txMapOf bs) (hdrs i) (hdrs (i + 1)))) =
        (fun i : Nat => 1 + i) := by
      funext i
      simp [mkStat, Function.comp_def, hnum]
      omega
    rw [hc, List.map_add_range']
    congr 1
    omega
  refine ⟨_, _, rfl, ?_, ?_, ?_⟩
  · show (buildBlockData (txMapOf bs)
        ((headerHeights tip.number).map (fun hgt => some (hdrs hgt)))).map
          (fun b => b.number) = _
    rw [hmapnum, headerHeights_eq_range', range'_drop_one]
    congr 1
    omega
  · rw [headerHeights_eq_range', range'_drop_one]
    congr 1
    omega
  · show List.Pairwise _ ((buildBlockData (txMapOf bs)
        ((headerHeights tip.number).map (fun hgt => some (hdrs hgt)))).map
          (fun b => b.number))
    rw [hmapnum]
    exact List.pairwise_lt_range' _ _

/-- C7: difficulty 10^13 at 10 s mean block time gives 10^12 H/s,
rendered "1.00 TH/s"; difficulty 500 at 1 s gives 500 H/s, rendered
"500.00 H/s"; in general the formatter picks the largest unit threshold
not exceeding the value and renders with two decimal places. -/
theorem formatHashrate_spec :
    hrOf (10 ^ 13) 10 = 10 ^ 12 ∧
    formatHashrate (10 ^ 12) = "1.00 TH/s" ∧
    hrOf 500 1 = 500 ∧
    formatHashrate 500 = "500.00 H/s" ∧
    (∀ h : Nat, 0 < h →
      (unitFor h).1 ≤ h ∧
      (∀ p ∈ hashrateUnits, p.1 ≤ h → p.1 ≤ (unitFor h).1) ∧
      formatHashrate h =
        toFixed2 (((h * 1000 / (unitFor h).1 : Nat) : ℚ) / 1000) ++ " " ++ (unitFor h).2) := by
  refine ⟨?_, ?_, ?_, ?_, ?_⟩
  · have hr : roundJS 10 = 10 := by norm_num [roundJS]
    rw [hrOf, hr]
    decide
  · have hfind : hashrateUnits.find? (fun p => decide (p.1 ≤ 10 ^ 12)) =
        some (10 ^ 12, "TH/s") := by
      rw [hashrateUnits]
      rw [List.find?_cons_of_neg _ (by norm_num)]
      rw [List.find?_cons_of_neg _ (by norm_num)]
      exact List.find?_cons_of_pos _ (by norm_num)
    rw [formatHashrate, hfind]
    show toFixed2 (((10 ^ 12 * 1000 / 10 ^ 12 : Nat) : ℚ) / 1000) ++ " " ++ "TH/s" =
      "1.00 TH/s"
    have h2 : ((10 ^ 12 * 1000 / 10 ^ 12 : Nat) : ℚ) / 1000 = 1 := by norm_num
    rw [h2]
    have h3 : ⌊(1 : ℚ) * 100 + 1 / 2⌋ = 100 := by norm_num
    rw [toFixed2, h3]
    rfl
  · have hr : roundJS 1 = 1 := by norm_num [roundJS]
    rw [hrOf, hr]
    decide
  · have hfind : hashrateUnits.find? (fun p => decide (p.1 ≤ 500)) = some (1, "H/s") := by
      rw [hashrateUnits]
      rw [List.find?_cons_of_neg _ (by norm_num)]
      rw [List.find?_cons_of_neg _ (by norm_num)]
      rw [List.find?_cons_of_neg _ (by norm_num)]
      rw [List.find?_cons_of_neg _ (by norm_num)]
      rw [List.find?_cons_of_neg _ (by norm_num)]
      rw [List.find?_cons_of_neg _ (by norm_num)]
      exact List.find?_cons_of_pos _ (by norm_num)
    rw [formatHashrate, hfind]
    show toFixed2 (((500 * 1000 / 1 : Nat) : ℚ) / 1000) ++ " " ++ "H/s" = "500.00 H/s"
    have h2 : ((500 * 1000 / 1 : Nat) : ℚ) / 1000 = 500 := by norm_num
    rw [h2]
    have h3 : ⌊(500 : ℚ) * 100 + 1 / 2⌋ = 50000 := by norm_num
    rw [toFixed2, h3]
    rfl
  · intro h hpos
    by_cases h18 : 10 ^ 18 ≤ h
    · have hfind : hashrateUnits.find? (fun p => decide (p.1 ≤ h)) =
          some (10 ^ 18, "EH/s") := by
        rw [hashrateUnits]
        exact List.find?_cons_of_pos _ (by simpa using h18)
      have hu : unitFor h = (10 ^ 18, "EH/s") := by rw [unitFor, hfind]; rfl
      refine ⟨by rw [hu]; exact h18, ?_, by rw [formatHashrate, hfind, hu]⟩
      intro p hp hle
      rw [hu]
      fin_cases hp <;> simp_all <;> omega
    · by_cases h15 : 10 ^ 15 ≤ h
      · have hfind : hashrateUnits.find? (fun p => decide (p.1 ≤ h)) =
            some (10 ^ 15, "PH/s") := by
          rw [hashrateUnits]
          rw [List.find?_cons_of_neg _ (by simpa using h18)]
          exact List.find?_cons_of_pos _ (by simpa using h15)
        have hu : unitFor h = (10 ^ 15, "PH/s") := by rw [unitFor, hfind]; rfl
        refine ⟨by rw [hu]; exact h15, ?_, by rw [formatHashrate, hfind, hu]⟩
        intro p hp hle
        rw [hu]
        fin_cases hp <;> simp_all <;> omega
      · by_cases h12 : 10 ^ 12 ≤ h
        · have hfind : hashrateUnits.find? (fun p => decide (p.1 ≤ h)) =
              some (10 ^ 12, "TH/s") := by
            rw [hashrateUnits]
            rw [List.find?_cons_of_neg _ (by simpa using h18)]
            rw [List.find?_cons_of_neg _ (by simpa using h15)]
            exact List.find?_cons_of_pos _ (by simpa using h12)
          have hu : unitFor h = (10 ^ 12, "TH/s") := by rw [unitFor, hfind]; rfl
          refine ⟨by rw [hu]; exact h12, ?_, by rw [formatHashrate, hfind, hu]⟩
          intro p hp hle
          rw [hu]
          fin_cases hp <;> simp_all <;> omega
        · by_cases h9 : 10 ^ 9 ≤ h
          · have hfind : hashrateUnits.find? (fun p => decide (p.1 ≤ h)) =
                some (10 ^ 9, "GH/s") := by
              rw [hashrateUnits]
              rw [List.find?_cons_of_neg _ (by simpa using h18)]
              rw [List.find?_cons_of_neg _ (by simpa using h15)]
              rw [List.find?_cons_of_neg _ (by simpa using h12)]
              exact List.find?_cons_of_pos _ (by simpa using h9)
            have hu : unitFor h = (10 ^ 9, "GH/s") := by rw [unitFor, hfind]; rfl
            refine ⟨by rw [hu]; exact h9, ?_, by rw [formatHashrate, hfind, hu]⟩
            intro p hp hle
            rw [hu]
            fin_cases hp <;> simp_all <;> omega
          · by_cases h6 : 10 ^ 6 ≤ h
            · have hfind : hashrateUnits.find? (fun p => decide (p.1 ≤ h)) =
                  some (10 ^ 6, "MH/s") := by
                rw [hashrateUnits]
                rw [List.find?_cons_of_neg _ (by simpa using h18)]
                rw [List.find?_cons_of_neg _ (by simpa using h15)]
                rw [List.find?_cons_of_neg _ (by simpa using h12)]
                rw [List.find?_cons_of_neg _ (by simpa using h9)]
                exact List.find?_cons_of_pos _ (by simpa using h6)
              have hu : unitFor h = (10 ^ 6, "MH/s") := by rw [unitFor, hfind]; rfl
              refine ⟨by rw [hu]; exact h6, ?_, by rw [formatHashrate, hfind, hu]⟩
              intro p hp hle
              rw [hu]
              fin_cases hp <;> simp_all <;> omega
            · by_cases h3 : 10 ^ 3 ≤ h
              · have hfind : hashrateUnits.find? (fun p => decide (p.1 ≤ h)) =
                    some (10 ^ 3, "kH/s") := by
                  rw [hashrateUnits]
                  rw [List.find?_cons_of_neg _ (by simpa using h18)]
                  rw [List.find?_cons_of_neg _ (by simpa using h15)]
                  rw [List.find?_cons_of_neg _ (by simpa using h12)]
                  rw [List.find?_cons_of_neg _ (by simpa using h9)]
                  rw [List.find?_cons_of_neg _ (by simpa using h6)]
                  exact List.find?_cons_of_pos _ (by simpa using h3)
                have hu : unitFor h = (10 ^ 3, "kH/s") := by rw [unitFor, hfind]; rfl
                refine ⟨by rw [hu]; exact h3, ?_, by rw [formatHashrate, hfind, hu]⟩
                intro p hp hle
                rw [hu]
                fin_cases hp <;> simp_all <;> omega
              · have h1 : (1 : Nat) ≤ h := hpos
                have hfind : hashrateUnits.find? (fun p => decide (p.1 ≤ h)) =
                    some (1, "H/s") := by
                  rw [hashrateUnits]
                  rw [List.find?_cons_of_neg _ (by simpa using h18)]
                  rw [List.find?_cons_of_neg _ (by simpa using h15)]
                  rw [List.find?_cons_of_neg _ (by simpa using h12)]
                  rw [List.find?_cons_of_neg _ (by simpa using h9)]
                  rw [List.find?_cons_of_neg _ (by simpa using h6)]
                  rw [List.find?_cons_of_neg _ (by simpa using h3)]
                  exact List.find?_cons_of_pos _ (by simpa using h1)
                have hu : unitFor h = (1, "H/s") := by rw [unitFor, hfind]; rfl
                refine ⟨by rw [hu]; exact h1, ?_, by rw [formatHashrate, hfind, hu]⟩
                intro p hp hle
                rw [hu]
                fin_cases hp <;> simp_all <;> omega

/-- Concrete instance of C6: tip height 3, four headers fetched, blocks
cover heights 1 through 3. -/
theorem snapshot_blocks_cover_window_witness :
    ∃ snap : Snapshot, ∃ c2 : Cache,
      buildHistoryCore 0 { hist := none, time := 0 }
        (Except.ok { number := 3, timestamp := 3000 })
        (Except.ok { difficulty := none })
        (Except.ok ((headerHeights 3).map
          (fun hgt => some { number := hgt, timestamp := 1000 * hgt })))
        (Except.ok []) = (Except.ok snap, c2) ∧
      snap.blocks.map (fun b => b.number) = (headerHeights 3).drop 1 ∧
      (headerHeights 3).drop 1 =
        List.range' (3 + 2 - min HIST_COUNT (3 + 1)) (min HIST_COUNT (3 + 1) - 1) ∧
      List.Pairwise (fun a b => a < b) (snap.blocks.map (fun b => b.number)) :=
  snapshot_blocks_cover_window 0 { hist := none, time := 0 }
    { number := 3, timestamp := 3000 } { difficulty := none } []
    (fun hgt => { number := hgt, timestamp := 1000 * hgt })
    (by decide) (fun hgt => rfl)

/-- Concrete instance of C7 at h = 500. -/
theorem formatHashrate_spec_witness :
    (unitFor 500).1 ≤ 500 ∧
    (∀ p ∈ hashrateUnits, p.1 ≤ 500 → p.1 ≤ (unitFor 500).1) ∧
    formatHashrate 500 =
      toFixed2 (((500 * 1000 / (unitFor 500).1 : Nat) : ℚ) / 1000) ++ " " ++
        (unitFor 500).2 :=
  formatHashrate_spec.2.2.2.2 500 (by decide)

/-- C8 counterexample: a transport failure of the whole
transaction-count batch (server.js line 123 has no catch) rejects the
entire cycle instead of degrading to null transaction counts. -/
theorem txBatch_failure_fails_cycle :
    buildHistoryCore 0 { hist := none, time := 0 }
      (Except.ok { number := 0, timestamp := 0 })
      (Except.ok { difficulty := none }) (Except.ok [])
      (Except.error "CKB node request timed out") =
      (Except.error "CKB node request timed out", { hist := none, time := 0 }) := rfl

/-- C8 amended: a failure of the whole transaction-count batch fetch
fails the cycle with that error (cache untouched); only per-item
failures inside a successful batch degrade to null transaction counts
for the affected blocks. -/
theorem txBatch_partial_failure_degrades (now : Nat) (c : Cache) (tip : Header)
    (ci : ChainInfo) (hs : List (Option Header))
    (hnf : ¬ (c.hist.isSome = true ∧ now - c.time < HIST_TTL)) :
    (∀ e, buildHistoryCore now c (Except.ok tip) (Except.ok ci) (Except.ok hs)
        (Except.error e) = (Except.error e, c)) ∧
    (∀ bs : List (Option Block), (∀ b ∈ bs, b = none) →
      ∃ snap : Snapshot,
        buildHistoryCore now c (Except.ok tip) (Except.ok ci) (Except.ok hs)
          (Except.ok bs) = (Except.ok snap, { hist := some snap, time := now }) ∧
        ∀ st ∈ snap.blocks, st.txCount = none) := by
  refine ⟨?_, ?_⟩
  · intro e
    rw [buildHistoryCore_not_fresh _ _ _ _ _ _ hnf]
    rfl
  · intro bs hbs
    rw [buildHistoryCore_not_fresh _ _ _ _ _ _ hnf]
    simp only [buildHistoryFetch]
    refine ⟨_, rfl, ?_⟩
    intro st hst
    exact buildBlockData_txCount_none (txMapOf bs) (txMapOf_all_none bs hbs) hs st hst

/-- Concrete instance of the amended C8: a batch of one failed item
yields a snapshot whose single block entry has a null tx count. -/
theorem txBatch_partial_failure_degrades_witness :
    ∃ snap : Snapshot,
      buildHistoryCore 0 { hist := none, time := 0 }
        (Except.ok { number := 1, timestamp := 1000 })
        (Except.ok { difficulty := none })
        (Except.ok [some { number := 0, timestamp := 0 },
                    some { number := 1, timestamp := 1000 }])
        (Except.ok [none]) = (Except.ok snap, { hist := some snap, time := 0 }) ∧
      ∀ st ∈ snap.blocks, st.txCount = none :=
  (txBatch_partial_failure_degrades 0 { hist := none, time := 0 }
      { number := 1, timestamp := 1000 } { difficulty := none }
      [some { number := 0, timestamp := 0 }, some { number := 1, timestamp := 1000 }]
      (by decide)).2 [none] (by decide)

/-- C9 counterexample: `rpcCall` throws `new Error(r.error.message)`, a
plain `Error` built from the message alone, so the error code of the node is
not carried: envelopes differing only in code map to the same failure,
and a node error is indistinguishable from a transport timeout whose
message happens to coincide. -/
theorem rpcError_code_not_carried :
    rpcCall (Except.ok
        ({ error := some { code := -32601, message := "m" },
           result := none } : RpcEnvelope Nat)) =
      rpcCall (Except.ok
        ({ error := some { code := -32000, message := "m" },
           result := none } : RpcEnvelope Nat)) ∧
    rpcCall (Except.ok
        ({ error := some { code := -32601, message := "CKB node request timed out" },
           result := none } : RpcEnvelope Nat)) =
      rpcCall (Except.error "CKB node request timed out" :
        Except String (RpcEnvelope Nat)) :=
  ⟨rfl, rfl⟩

/-- C9 amended: on an error envelope `rpcCall` fails with an error
carrying exactly the message of the node (the code is discarded, and the
failure is a plain error of the same kind as a transport failure); on an
error-free envelope it returns the result field untouched. -/
theorem rpcCall_error_envelope {α : Type} (codeVal : Int) (msg : String)
    (res : Option α) :
    rpcCall (Except.ok
        { error := some { code := codeVal, message := msg },
          result := res }) = Except.error msg ∧
    rpcCall (Except.ok { error := none, result := res }) = Except.ok res :=
  ⟨rfl, rfl⟩

/-- C10 counterexample: the cache holds a snapshot whose age (20000 ms)
exceeds the 15000 ms freshness threshold — the STALE state — and two
concurrent callers both observe it stale: each starts its own refresh
cycle, so two tip-header fetches are issued, not one. -/
theorem concurrent_stale_readers_both_fetch :
    (concurrentTipFetches 2
      { hist := some { blocks := [], avgBlockTimeSec := 0, networkHashrate := "—",
                       hashratePerBlock := [], tipHeight := 0 }, time := 0 }
      20000).1 = 2 ∧ (2 : Nat) ≠ 1 :=
  ⟨rfl, by decide⟩

/-- C10 amended: `buildHistory` has no single-flight handle, and it
writes the cache only after its fetches complete, so each of the N
concurrent callers observing a stale cache starts its own refresh: N
tip-header fetches are issued, and the cache is still unwritten when the
last prefix runs. -/
theorem concurrent_stale_readers_all_fetch (n : Nat) (c : Cache) (now : Nat)
    (hnf : ¬ (c.hist.isSome = true ∧ now - c.time < HIST_TTL)) :
    (concurrentTipFetches n c now).1 = n ∧ (concurrentTipFetches n c now).2 = c := by
  have hsp : syncPhase c now = (SyncOutcome.startFetch, c) := by
    unfold syncPhase
    rcases hh : c.hist with _ | s
    · rfl
    · show (if now - c.time < HIST_TTL then (SyncOutcome.hit s, c)
          else (SyncOutcome.startFetch, c)) = _
      rw [if_neg (fun hlt => hnf ⟨by rw [hh]; rfl, hlt⟩)]
  have hfold : ∀ (l : List Nat) (k : Nat),
      l.foldl
        (fun acc _ =>
          match syncPhase acc.2 now with
          | (SyncOutcome.hit _, c2) => (acc.1, c2)
          | (SyncOutcome.startFetch, c2) => (acc.1 + 1, c2))
        (k, c) = (k + l.length, c) := by
    intro l
    induction l with
    | nil => intro k; simp
    | cons x xs ih =>
      intro k
      simp only [List.foldl_cons, hsp, List.length_cons]
      rw [ih (k + 1)]
      congr 1
      omega
  unfold concurrentTipFetches
  rw [hfold]
  exact ⟨by simp, rfl⟩

/-- Concrete instance of the amended C10: a cached snapshot aged 20000
ms (past the 15000 ms threshold, so STALE) with three concurrent
readers — three tip fetches are issued and the cache slot is untouched. -/
theorem concurrent_stale_readers_all_fetch_witness :
    (concurrentTipFetches 3
      { hist := some { blocks := [], avgBlockTimeSec := 0, networkHashrate := "—",
                       hashratePerBlock := [], tipHeight := 7 }, time := 0 }
      20000).1 = 3 ∧
    (concurrentTipFetches 3
      { hist := some { blocks := [], avgBlockTimeSec := 0, networkHashrate := "—",
                       hashratePerBlock := [], tipHeight := 7 }, time := 0 }
      20000).2 =
      { hist := some { blocks := [], avgBlockTimeSec := 0, networkHashrate := "—",
                       hashratePerBlock := [], tipHeight := 7 }, time := 0 } :=
  concurrent_stale_readers_all_fetch 3
    { hist := some { blocks := [], avgBlockTimeSec := 0, networkHashrate := "—",
                     hashratePerBlock := [], tipHeight := 7 }, time := 0 }
    20000 (by decide)
